import Mathlib

/-!
Verification of the AI-Powered Interview Q&A Generator against its
specification.  The Python sources (`ai_engine.py`, `main.py`,
`resume_parser.py`) are shallowly embedded below: pure text processing
becomes functions on `List Char` / `String`, the JSON value space becomes an
inductive type, the fallible external collaborators (the HTTP backend, the
Gemini client, `json.loads`) become explicit parameters of type
`Except`/`Option`, and every Python exception path becomes an explicit
branch.
-/

/-! ## Python string primitives -/

/-- Python's `\s` regex class and `str.strip` whitespace test, restricted to
the ASCII whitespace characters (all inputs appearing in the claims are
ASCII). -/
def isPySpace (c : Char) : Bool :=
  c == ' ' || c == '\t' || c == '\n' || c == '\r' || c == '\x0b' || c == '\x0c'

/-- Drop the maximal leading run of whitespace (the greedy `\s*` of the fence
regexes). -/
def dropSpaces : List Char → List Char
  | [] => []
  | c :: cs => if isPySpace c then dropSpaces cs else c :: cs

/-- Python `str.strip()`: remove leading and trailing whitespace. -/
def pyStrip (l : List Char) : List Char :=
  ((l.dropWhile isPySpace).reverse.dropWhile isPySpace).reverse

/-- `String` wrapper for `pyStrip`. -/
def pyStripS (s : String) : String :=
  (pyStrip s.toList).asString

/-- `begins pat l` decides whether `pat` is a prefix of `l`
(the test a regex engine performs at each scan position). -/
def begins : List Char → List Char → Bool
  | [], _ => true
  | _ :: _, [] => false
  | p :: ps, c :: cs => p == c && begins ps cs

/-- Python's `in` on strings: `containsSub pat l` decides whether `pat`
occurs as a contiguous substring of `l`. -/
def containsSub (pat : List Char) : List Char → Bool
  | [] => begins pat []
  | c :: cs => begins pat (c :: cs) || containsSub pat cs

/-- Python `str.lower`, restricted to ASCII case mapping. -/
def lowerChars (l : List Char) : List Char :=
  l.map Char.toLower

/-! ## The response extractor (`ai_engine.extract_json_from_response`) -/

/-- The opening fence marker with language tag, `re.sub(r'``` + `json\s*'...)`
pattern head. -/
def fenceJson : List Char :=
  "```json".toList

/-- The bare fence marker, pattern head of the second substitution. -/
def tripleTick : List Char :=
  "```".toList

/-- Fuel-indexed engine for `re.sub(pat ++ r'\s*', '', text)`: scan left to
right; at each position, if the literal `pat` is a prefix of the remaining
text, delete it together with the maximal following whitespace run and
continue after it (Python's `re.sub` does not rescan emitted output);
otherwise emit one character.  The fuel equals the list length at the top
level, which always suffices. -/
def subPatF (pat : List Char) : Nat → List Char → List Char
  | 0, l => l
  | _, [] => []
  | f + 1, c :: cs =>
    if begins pat (c :: cs) then subPatF pat f (dropSpaces (cs.drop (pat.length - 1)))
    else c :: subPatF pat f cs

/-- `re.sub(pat ++ r'\s*', '', l)` for a literal pattern `pat`. -/
def subPat (pat : List Char) (l : List Char) : List Char :=
  subPatF pat l.length l

/-- `text = re.sub(r'``` + `json\s*', '', text)` (ai_engine.py line 76). -/
def subFenceJson (l : List Char) : List Char :=
  subPat fenceJson l

/-- `text = re.sub(r'``` + `\s*', '', text)` (ai_engine.py line 77). -/
def subFence (l : List Char) : List Char :=
  subPat tripleTick l

/-- The text after both fence-marker substitutions. -/
def fenceStripped (t : List Char) : List Char :=
  subFence (subFenceJson t)

/-- Index of the first occurrence of `c`, if any. -/
def firstIdx? (c : Char) : List Char → Option Nat
  | [] => none
  | a :: as => if a = c then some 0 else (firstIdx? c as).map (· + 1)

/-- Index of the last occurrence of `c`, if any. -/
def lastIdx? (c : Char) : List Char → Option Nat
  | [] => none
  | a :: as =>
    match lastIdx? c as with
    | some k => some (k + 1)
    | none => if a = c then some 0 else none

/-- `re.search(r'\[.*\]', text, re.DOTALL)`: leftmost match of a literal `[`
followed by a greedy `.*` (newlines included) and a literal `]`.  The engine
tries each start position left to right; at a `[` it succeeds iff some `]`
occurs at or after it, and greediness extends the match to the last such
`]`. -/
def searchBracket : List Char → Option (List Char)
  | [] => none
  | c :: rest =>
    if c = '[' then
      match lastIdx? ']' (c :: rest) with
      | some j => some ((c :: rest).take (j + 1))
      | none => searchBracket rest
    else searchBracket rest

/-- `ai_engine.extract_json_from_response` (lines 74-83): remove fence
markers, then return the first-`[`-to-last-`]` span if present, else the
stripped remaining text. -/
def extract_json_from_response (t : List Char) : List Char :=
  match searchBracket (fenceStripped t) with
  | some m => m
  | none => pyStrip (fenceStripped t)

/-- Decidable form of "the remaining text has no `[` with a `]` at or after
it" (the condition under which `re.search(r'\[.*\]', ...)` fails). -/
def noSpanB (l : List Char) : Bool :=
  match firstIdx? '[' l, lastIdx? ']' l with
  | some i, some j => decide (j < i)
  | _, _ => true

/-- A bare JSON array wrapped in a Markdown code fence with the `json`
language tag, as an LLM typically emits it. -/
def wrapFenceJson (s : List Char) : List Char :=
  fenceJson ++ ('\n' :: s) ++ ('\n' :: tripleTick)

/-! ## JSON values and the validator -/

/-- The value space of Python's `json.loads` (numbers collapsed to `Int`;
no claim involves fractional numbers). -/
inductive Json where
  | null : Json
  | bool : Bool → Json
  | num : Int → Json
  | str : String → Json
  | arr : List Json → Json
  | obj : List (String × Json) → Json

/-- Python `dict` lookup on a parsed JSON object. -/
def jlookup (kvs : List (String × Json)) (k : String) : Option Json :=
  match kvs with
  | [] => none
  | (k', v) :: rest => if k' = k then some v else jlookup rest k

/-- Python `str()` as used in the handlers' f-strings.  Modelled shallowly:
nested containers are not rendered in Python `repr` syntax; every claim
exercises only the `str` case. -/
def pyStr : Json → String
  | Json.str s => s
  | Json.num n => toString n
  | Json.bool b => cond b ("True") ("False")
  | Json.null => "None"
  | Json.arr _ => "<list>"
  | Json.obj _ => "<dict>"

/-- The error-as-data sentinel `[{"question": q, "answer": a}]` that every
failure path of the generator returns. -/
def sentinel (q a : String) : List Json :=
  [Json.obj [("question", Json.str q), ("answer", Json.str a)]]

/-- The sentinel produced by the shape check (ai_engine.py line 105). -/
def invalidSentinel : List Json :=
  sentinel ("Invalid response format") ("Expected 5 Q&A pairs")

/-- The shape check of `generate_qa_pairs` (ai_engine.py lines 104-107):
`if not isinstance(qa_pairs, list) or len(qa_pairs) != 5` return the
invalid-format sentinel, else return the parsed value unchanged. -/
def validateParsed : Json → List Json
  | Json.arr xs => if xs.length = 5 then xs else invalidSentinel
  | _ => invalidSentinel

/-! ## The role-based orchestrator (`ai_engine.generate_qa_pairs`) -/

/-- Ollama endpoint constant (ai_engine.py line 10). -/
def OLLAMA_API_URL : String :=
  "http://localhost:11434/api/generate"

/-- Model constant (ai_engine.py line 11). -/
def LLM_MODEL : String :=
  "mistral"

/-- One `{"question"/"answer"}` block of the role prompt template. -/
def promptQABlock : String :=
  "    \x7b\n        \"question\": \"...\",\n        \"answer\": \"...\"\n    \x7d"

/-- `ai_engine.generate_prompt` (lines 17-48). -/
def generate_prompt (role : String) : String :=
  "\nYou are an expert interviewer.\n\nGenerate exactly 5 realistic interview questions and answers for the job role: "
    ++ role
    ++ ".\n\nMake 3 technical and 2 HR-based.\n\nReturn ONLY valid JSON without any additional text or formatting. Format as:\n[\n"
    ++ promptQABlock ++ ",\n" ++ promptQABlock ++ ",\n" ++ promptQABlock ++ ",\n"
    ++ promptQABlock ++ ",\n" ++ promptQABlock ++ "\n]\n"

/-- Outcome of `requests.post(OLLAMA_API_URL, ...)`: either the call raised
(transport failure, timeout, ...), or it returned a status code together
with the outcome of `response.json()` (`Except.error` when the body is
unparsable). -/
inductive PostOutcome where
  | exn : String → PostOutcome
  | resp : Nat → Except String Json → PostOutcome

/-- `response.json()["response"].strip()`'s fallible core: subscripting a
non-dict raises `TypeError`, a missing key raises `KeyError`, and `.strip()`
on a non-string raises `AttributeError`; all are caught by the enclosing
`except` (messages modelled representatively — no claim constrains them). -/
def getResponseText : Json → Except String String
  | Json.obj kvs =>
    match jlookup kvs ("response") with
    | some (Json.str s) => Except.ok s
    | some _ => Except.error ("AttributeError: object has no attribute strip")
    | none => Except.error ("KeyError: response")
  | _ => Except.error ("TypeError: response is not subscriptable by string")

/-- `ai_engine.generate_qa_pairs` (lines 85-110).  The two external effects
are passed in: `post` maps the built prompt to the outcome of the HTTP call,
and `loads` is `json.loads` on the extracted text (`Except.error` when the
parse raises).  Every `except Exception` path returns the corresponding
sentinel, so the function is total. -/
def generate_qa_pairs (loads : String → Except String Json)
    (role : String) (post : String → PostOutcome) : List Json :=
  match post (generate_prompt role) with
  | PostOutcome.exn msg => sentinel ("Error occurred") msg
  | PostOutcome.resp status body =>
    if status = 200 then
      match body with
      | Except.error msg => sentinel ("Error occurred") msg
      | Except.ok bj =>
        match getResponseText bj with
        | Except.error msg => sentinel ("Error occurred") msg
        | Except.ok rt =>
          match loads ((extract_json_from_response (pyStrip rt.toList)).asString) with
          | Except.error msg => sentinel ("Error occurred") msg
          | Except.ok v => validateParsed v
    else sentinel ("API Error") ("Status code: " ++ toString status)

/-! ## The FastAPI handlers (`main.py`) -/

/-- A handler's observable outcome: an `HTTPException(status, detail)` or the
success JSON body `{ident, questions_and_answers, total_questions, status,
type}`. -/
inductive ApiResponse where
  | err : Nat → String → ApiResponse
  | ok : String → List Json → Nat → String → String → ApiResponse

/-- The error sniff shared verbatim by both handlers (main.py lines 68-70 and
123-125): `if len(qa_pairs) == 1 and "error" in
qa_pairs[0].get("question", "").lower()` raise 500 with the sentinel's
answer; any exception inside the test (non-dict element, non-string
question, missing answer key) falls to the handlers' generic
`except Exception` and becomes 500 "Internal server error occurred".
Returns `some` error response, or `none` when the handler proceeds to the
success body. -/
def sniff (qa : List Json) : Option ApiResponse :=
  match qa with
  | [x] =>
    match x with
    | Json.obj kvs =>
      match (jlookup kvs ("question")).getD (Json.str "") with
      | Json.str q =>
        if containsSub ("error").toList (lowerChars q.toList) then
          match jlookup kvs ("answer") with
          | some a => some (ApiResponse.err 500 ("AI generation failed: " ++ pyStr a))
          | none => some (ApiResponse.err 500 ("Internal server error occurred"))
        else none
      | _ => some (ApiResponse.err 500 ("Internal server error occurred"))
    | _ => some (ApiResponse.err 500 ("Internal server error occurred"))
  | _ => none

/-- `main.generate_questions` (lines 41-86).  The generator's result is
passed in as `qa` (the embedding of the `generate_qa_pairs(role)` call). -/
def generate_questions (role : String) (qa : List Json) : ApiResponse :=
  if pyStripS role = "" then ApiResponse.err 400 ("Role cannot be empty")
  else if (pyStripS role).length < 2 then
    ApiResponse.err 400 ("Role must be at least 2 characters long")
  else
    match qa with
    | [] => ApiResponse.err 500 ("Failed to generate valid questions")
    | _ =>
      match sniff qa with
      | some e => e
      | none => ApiResponse.ok (pyStripS role) qa qa.length ("success") ("role_based")

/-- The suffix after the last `.` (the whole text when no dot occurs, empty
when the text ends in a dot) — the value of Python's `split('.')[-1]`. -/
def afterLastDot (l : List Char) : List Char :=
  (l.reverse.takeWhile (fun c => c != '.')).reverse

/-- `filename.split('.')[-1].lower()` (main.py line 98). -/
def extLower (filename : String) : String :=
  (lowerChars (afterLastDot filename.toList)).asString

/-- `main.generate_questions_from_resume` (lines 88-141).  The extracted
resume text and the generator's result are passed in (embeddings of the
`extract_resume_text` and `generate_qa_pairs_from_resume` calls). -/
def generate_questions_from_resume (filename : String) (resume_text : String)
    (qa : List Json) : ApiResponse :=
  if filename = "" then ApiResponse.err 400 ("No file uploaded")
  else if ¬ (extLower filename = "pdf" ∨ extLower filename = "docx" ∨ extLower filename = "txt") then
    ApiResponse.err 400 ("Unsupported file type. Allowed: pdf, docx, txt")
  else if resume_text = "" ∨ (pyStripS resume_text).length < 50 then
    ApiResponse.err 400 ("Resume text is too short or empty. Please upload a valid resume.")
  else
    match qa with
    | [] => ApiResponse.err 500 ("Failed to generate valid questions from resume")
    | _ =>
      match sniff qa with
      | some e => e
      | none => ApiResponse.ok filename qa qa.length ("success") ("resume_based")

/-! ## LLM call configuration (for the timeout claim) -/

/-- The keyword configuration of an outbound LLM call site. -/
structure CallConfig where
  target : String
  timeout : Option Nat

/-- `requests.post(OLLAMA_API_URL, json={...}, timeout=120)`
(ai_engine.py lines 91-95). -/
def ollamaPostCall : CallConfig :=
  ⟨OLLAMA_API_URL, some 120⟩

/-- `genai.GenerativeModel('gemini-1.5-flash').generate_content(prompt)`
(ai_engine.py lines 118-119): no timeout argument is passed. -/
def geminiGenerateCall : CallConfig :=
  ⟨"gemini-1.5-flash", none⟩

/-! ## `resume_parser.extract_text_from_txt` -/

/-- A UTF-8 continuation byte. -/
def isCont (b : Nat) : Bool :=
  0x80 ≤ b && b < 0xC0

/-- Strict UTF-8 decoding as performed by Python's `bytes.decode('utf-8')`:
rejects continuation bytes in lead position, overlong encodings, surrogates
and code points above U+10FFFF. -/
def utf8Decode : List Nat → Option (List Char)
  | [] => some []
  | b :: bs =>
    if b < 0x80 then
      match utf8Decode bs with
      | some cs => some (Char.ofNat b :: cs)
      | none => none
    else if b < 0xC2 then none
    else if b < 0xE0 then
      match bs with
      | b1 :: rest =>
        if isCont b1 then
          match utf8Decode rest with
          | some cs => some (Char.ofNat ((b - 0xC0) * 0x40 + (b1 - 0x80)) :: cs)
          | none => none
        else none
      | [] => none
    else if b < 0xF0 then
      match bs with
      | b1 :: b2 :: rest =>
        if (if b = 0xE0 then 0xA0 ≤ b1 && b1 < 0xC0
            else if b = 0xED then 0x80 ≤ b1 && b1 < 0xA0
            else isCont b1) && isCont b2 then
          match utf8Decode rest with
          | some cs =>
            some (Char.ofNat ((b - 0xE0) * 0x1000 + (b1 - 0x80) * 0x40 + (b2 - 0x80)) :: cs)
          | none => none
        else none
      | _ => none
    else if b < 0xF5 then
      match bs with
      | b1 :: b2 :: b3 :: rest =>
        if (if b = 0xF0 then 0x90 ≤ b1 && b1 < 0xC0
            else if b = 0xF4 then 0x80 ≤ b1 && b1 < 0x90
            else isCont b1) && isCont b2 && isCont b3 then
          match utf8Decode rest with
          | some cs =>
            some (Char.ofNat ((b - 0xF0) * 0x40000 + (b1 - 0x80) * 0x1000
              + (b2 - 0x80) * 0x40 + (b3 - 0x80)) :: cs)
          | none => none
        else none
      | _ => none
    else none

/-- Latin-1 (`latin-1`): every byte maps to the code point of the same
value. -/
def latin1Table (b : Nat) : Option Char :=
  if b < 256 then some (Char.ofNat b) else none

/-- `iso-8859-1` is the same codec as `latin-1` in Python. -/
def iso8859Table (b : Nat) : Option Char :=
  latin1Table b

/-- Windows-1252: ASCII and `0xA0`-`0xFF` as in Latin-1; `0x80`-`0x9F`
remapped, with `0x81, 0x8D, 0x8F, 0x90, 0x9D` unmapped (decoding them
raises). -/
def cp1252Table (b : Nat) : Option Char :=
  if b < 0x80 then some (Char.ofNat b)
  else if 0xA0 ≤ b ∧ b < 256 then some (Char.ofNat b)
  else
    match b with
    | 0x80 => some (Char.ofNat 0x20AC)
    | 0x82 => some (Char.ofNat 0x201A)
    | 0x83 => some (Char.ofNat 0x0192)
    | 0x84 => some (Char.ofNat 0x201E)
    | 0x85 => some (Char.ofNat 0x2026)
    | 0x86 => some (Char.ofNat 0x2020)
    | 0x87 => some (Char.ofNat 0x2021)
    | 0x88 => some (Char.ofNat 0x02C6)
    | 0x89 => some (Char.ofNat 0x2030)
    | 0x8A => some (Char.ofNat 0x0160)
    | 0x8B => some (Char.ofNat 0x2039)
    | 0x8C => some (Char.ofNat 0x0152)
    | 0x8E => some (Char.ofNat 0x017D)
    | 0x91 => some (Char.ofNat 0x2018)
    | 0x92 => some (Char.ofNat 0x2019)
    | 0x93 => some (Char.ofNat 0x201C)
    | 0x94 => some (Char.ofNat 0x201D)
    | 0x95 => some (Char.ofNat 0x2022)
    | 0x96 => some (Char.ofNat 0x2013)
    | 0x97 => some (Char.ofNat 0x2014)
    | 0x98 => some (Char.ofNat 0x02DC)
    | 0x99 => some (Char.ofNat 0x2122)
    | 0x9A => some (Char.ofNat 0x0161)
    | 0x9B => some (Char.ofNat 0x203A)
    | 0x9C => some (Char.ofNat 0x0153)
    | 0x9E => some (Char.ofNat 0x017E)
    | 0x9F => some (Char.ofNat 0x0178)
    | _ => none

/-- `bytes.decode(enc)` for a single-byte codec: succeeds iff every byte is
mapped. -/
def tryDecode (table : Nat → Option Char) : List Nat → Option (List Char)
  | [] => some []
  | b :: bs =>
    match table b, tryDecode table bs with
    | some c, some cs => some (c :: cs)
    | _, _ => none

/-- The total Latin-1 decoding (what `bytes.decode('latin-1')` returns). -/
def latin1Decode (bs : List Nat) : List Char :=
  bs.map Char.ofNat

/-- `bytes.decode('utf-8', errors='replace')`.  Modelled shallowly: one
U+FFFD per rejected lead byte or truncated sequence (the branch is proved
unreachable below, so no claim depends on its exact output). -/
def utf8ReplaceDecode : List Nat → List Char
  | [] => []
  | b :: bs =>
    if b < 0x80 then Char.ofNat b :: utf8ReplaceDecode bs
    else if b < 0xC2 then Char.ofNat 0xFFFD :: utf8ReplaceDecode bs
    else if b < 0xE0 then
      match bs with
      | b1 :: rest =>
        if isCont b1 then Char.ofNat ((b - 0xC0) * 0x40 + (b1 - 0x80)) :: utf8ReplaceDecode rest
        else Char.ofNat 0xFFFD :: utf8ReplaceDecode (b1 :: rest)
      | [] => [Char.ofNat 0xFFFD]
    else if b < 0xF0 then
      match bs with
      | b1 :: b2 :: rest =>
        if (if b = 0xE0 then 0xA0 ≤ b1 && b1 < 0xC0
            else if b = 0xED then 0x80 ≤ b1 && b1 < 0xA0
            else isCont b1) && isCont b2 then
          Char.ofNat ((b - 0xE0) * 0x1000 + (b1 - 0x80) * 0x40 + (b2 - 0x80))
            :: utf8ReplaceDecode rest
        else Char.ofNat 0xFFFD :: utf8ReplaceDecode (b1 :: b2 :: rest)
      | _ => [Char.ofNat 0xFFFD]
    else if b < 0xF5 then
      match bs with
      | b1 :: b2 :: b3 :: rest =>
        if (if b = 0xF0 then 0x90 ≤ b1 && b1 < 0xC0
            else if b = 0xF4 then 0x80 ≤ b1 && b1 < 0x90
            else isCont b1) && isCont b2 && isCont b3 then
          Char.ofNat ((b - 0xF0) * 0x40000 + (b1 - 0x80) * 0x1000
            + (b2 - 0x80) * 0x40 + (b3 - 0x80)) :: utf8ReplaceDecode rest
        else Char.ofNat 0xFFFD :: utf8ReplaceDecode (b1 :: b2 :: b3 :: rest)
      | _ => [Char.ofNat 0xFFFD]
    else Char.ofNat 0xFFFD :: utf8ReplaceDecode bs

/-- `resume_parser.extract_text_from_txt` (lines 28-50): try UTF-8, then the
fallback encodings `latin-1`, `iso-8859-1`, `cp1252` in order, then lossy
UTF-8 with replacement; the successful decoding is returned stripped. -/
def extract_text_from_txt (bs : List Nat) : List Char :=
  match utf8Decode bs with
  | some cs => pyStrip cs
  | none =>
    match tryDecode latin1Table bs with
    | some cs => pyStrip cs
    | none =>
      match tryDecode iso8859Table bs with
      | some cs => pyStrip cs
      | none =>
        match tryDecode cp1252Table bs with
        | some cs => pyStrip cs
        | none => pyStrip (utf8ReplaceDecode bs)

/-! ## Lemmas: the substitution engine -/

theorem dropSpaces_length_le : ∀ l : List Char, (dropSpaces l).length ≤ l.length
  | [] => Nat.le_refl _
  | c :: cs => by
    by_cases h : isPySpace c = true
    · simp only [dropSpaces, h, if_true]
      exact Nat.le_trans (dropSpaces_length_le cs) (Nat.le_succ _)
    · simp only [dropSpaces, h, if_false]
      exact Nat.le_refl _

theorem subPatF_fuel (pat : List Char) :
    ∀ (f : Nat) (l : List Char), l.length ≤ f → subPatF pat f l = subPatF pat l.length l := by
  intro f
  induction f using Nat.strong_induction_on with
  | _ f ih =>
    intro l hl
    cases f with
    | zero =>
      have hnil : l = [] := by
        cases l with
        | nil => rfl
        | cons c cs => simp at hl
      subst hnil
      rfl
    | succ f' =>
      cases l with
      | nil => rfl
      | cons c cs =>
        have hcs : cs.length ≤ f' := by simpa using hl
        have hd : (dropSpaces (cs.drop (pat.length - 1))).length ≤ cs.length := by
          refine Nat.le_trans (dropSpaces_length_le _) ?_
          rw [List.length_drop]
          omega
        simp only [subPatF, List.length_cons]
        by_cases hb : begins pat (c :: cs) = true
        · rw [if_pos hb, if_pos hb]
          rw [ih f' (Nat.lt_succ_self f') _ (Nat.le_trans hd hcs)]
          rw [ih cs.length (Nat.lt_succ_of_le hcs) _ hd]
        · rw [if_neg hb, if_neg hb]
          rw [ih f' (Nat.lt_succ_self f') cs hcs]

theorem subPat_nil (pat : List Char) : subPat pat [] = [] := rfl

theorem subPat_cons (pat : List Char) (c : Char) (cs : List Char) :
    subPat pat (c :: cs) =
      if begins pat (c :: cs) then subPat pat (dropSpaces (cs.drop (pat.length - 1)))
      else c :: subPat pat cs := by
  have hd : (dropSpaces (cs.drop (pat.length - 1))).length ≤ cs.length := by
    refine Nat.le_trans (dropSpaces_length_le _) ?_
    rw [List.length_drop]
    omega
  show subPatF pat (c :: cs).length (c :: cs) = _
  simp only [List.length_cons, subPatF]
  rw [subPatF_fuel pat cs.length _ hd]
  rfl

/-! ## Lemmas: prefix and substring tests -/

theorem begins_trans : ∀ (a b c : List Char),
    begins a b = true → begins b c = true → begins a c = true
  | [], _, _, _, _ => rfl
  | _ :: _, [], _, h, _ => by simp [begins] at h
  | _ :: _, _ :: _, [], _, h2 => by simp [begins] at h2
  | x :: xs, y :: ys, z :: zs, h1, h2 => by
    simp only [begins, Bool.and_eq_true, beq_iff_eq] at h1 h2 ⊢
    exact ⟨h1.1.trans h2.1, begins_trans xs ys zs h1.2 h2.2⟩

theorem begins_append_left : ∀ (p l1 l2 : List Char), p.length ≤ l1.length →
    begins p (l1 ++ l2) = begins p l1
  | [], _, _, _ => rfl
  | p :: ps, [], _, h => by simp at h
  | p :: ps, a :: l1, l2, h => by
    show (p == a && begins ps (l1 ++ l2)) = (p == a && begins ps l1)
    rw [begins_append_left ps l1 l2 (by simpa using h)]

theorem begins_head_mem : ∀ (p : List Char) (x : Char) (xs : List Char),
    begins p (x :: xs) = true → p ≠ [] → x ∈ p
  | [], _, _, _, hne => absurd rfl hne
  | q :: qs, x, xs, h, _ => by
    simp only [begins, Bool.and_eq_true, beq_iff_eq] at h
    rw [← h.1]
    exact List.mem_cons_self q qs

theorem begins_second_mem : ∀ (p : List Char) (x y : Char) (xs : List Char),
    begins p (x :: y :: xs) = true → 2 ≤ p.length → y ∈ p
  | [], _, _, _, _, h2 => by simp at h2
  | q :: qs, x, y, xs, h, h2 => by
    simp only [begins, Bool.and_eq_true] at h
    have hqs : qs ≠ [] := by
      cases qs with
      | nil => simp at h2
      | cons _ _ => simp
    exact List.mem_cons_of_mem q (begins_head_mem qs y xs h.2 hqs)

theorem begins_self_append : ∀ (p l : List Char), begins p (p ++ l) = true
  | [], _ => rfl
  | q :: qs, l => by
    show (q == q && begins qs (qs ++ l)) = true
    rw [beq_self_eq_true, Bool.true_and]
    exact begins_self_append qs l

theorem contains_of_begins (p l : List Char) (h : begins p l = true) :
    containsSub p l = true := by
  cases l with
  | nil => exact h
  | cons c cs => simp [containsSub, h]

theorem containsSub_cons_false (p : List Char) (c : Char) (cs : List Char)
    (h : containsSub p (c :: cs) = false) :
    begins p (c :: cs) = false ∧ containsSub p cs = false := by
  simpa [containsSub, Bool.or_eq_false_iff] using h

/-! ## Lemmas: the fence substitutions leave fence-free text unchanged -/

theorem subPat_id (pat l : List Char) (hpat : begins tripleTick pat = true)
    (hl : containsSub tripleTick l = false) : subPat pat l = l := by
  induction l with
  | nil => rfl
  | cons c cs ih =>
    obtain ⟨hb3, hcs⟩ := containsSub_cons_false tripleTick c cs hl
    have hb : ¬ begins pat (c :: cs) = true := by
      intro htrue
      rw [begins_trans tripleTick pat (c :: cs) hpat htrue] at hb3
      exact Bool.noConfusion hb3
    rw [subPat_cons, if_neg hb, ih hcs]

theorem subPat_append (pat : List Char) (hpat : begins tripleTick pat = true) :
    ∀ (s t : List Char), containsSub tripleTick s = false → s.getLast? = some ']' →
      subPat pat (s ++ t) = s ++ subPat pat t
  | [], _, _, hlast => by simp at hlast
  | [c], t, _, hlast => by
    have hc : c = ']' := by simpa using hlast
    have hb : ¬ begins pat (c :: t) = true := by
      intro htrue
      have h3 := begins_trans tripleTick pat (c :: t) hpat htrue
      have hmem := begins_head_mem tripleTick c t h3 (by decide)
      rw [hc] at hmem
      exact absurd hmem (by decide)
    simp only [List.cons_append, List.nil_append]
    rw [subPat_cons, if_neg hb]
  | c :: c2 :: cs2, t, hs, hlast => by
    obtain ⟨hb3, hs'⟩ := containsSub_cons_false tripleTick c (c2 :: cs2) hs
    have hlast' : (c2 :: cs2).getLast? = some ']' := by
      rwa [List.getLast?_cons_cons] at hlast
    have hb : ¬ begins pat ((c :: c2 :: cs2) ++ t) = true := by
      intro htrue
      have h3 := begins_trans tripleTick pat ((c :: c2 :: cs2) ++ t) hpat htrue
      cases cs2 with
      | nil =>
        have hc2 : c2 = ']' := by simpa using hlast'
        have hmem := begins_second_mem tripleTick c c2 t (by simpa using h3) (by decide)
        rw [hc2] at hmem
        exact absurd hmem (by decide)
      | cons c3 cs3 =>
        rw [begins_append_left tripleTick (c :: c2 :: c3 :: cs3) t
          (by rw [show tripleTick.length = 3 from rfl]; simp)] at h3
        rw [contains_of_begins tripleTick (c :: c2 :: c3 :: cs3) h3] at hs
        exact Bool.noConfusion hs
    have hrec := subPat_append pat hpat (c2 :: cs2) t hs' hlast'
    simp only [List.cons_append] at hb ⊢
    rw [subPat_cons, if_neg hb]
    simp only [List.cons_append] at hrec
    rw [hrec]

/-! ## Lemmas: first/last indices and the bracket search -/

theorem firstIdx?_of_head (l : List Char) (c : Char) (h : l.head? = some c) :
    firstIdx? c l = some 0 := by
  cases l with
  | nil => simp at h
  | cons a as =>
    have ha : a = c := by simpa using h
    simp [firstIdx?, ha]

theorem lastIdx?_cons (a : Char) (as : List Char) (c : Char) :
    lastIdx? c (a :: as) =
      match lastIdx? c as with
      | some k => some (k + 1)
      | none => if a = c then some 0 else none := rfl

theorem lastIdx?_of_getLast : ∀ (l : List Char) (c : Char),
    l.getLast? = some c → lastIdx? c l = some (l.length - 1)
  | [], _, h => by simp at h
  | [a], c, h => by
    have ha : a = c := by simpa using h
    simp [lastIdx?, ha]
  | a :: b :: bs, c, h => by
    have h' : (b :: bs).getLast? = some c := by rwa [List.getLast?_cons_cons] at h
    have ih := lastIdx?_of_getLast (b :: bs) c h'
    rw [lastIdx?_cons, ih]
    simp only [List.length_cons]
    congr 1

theorem lastIdx?_eq_none : ∀ (l : List Char) (c : Char), c ∉ l → lastIdx? c l = none
  | [], _, _ => rfl
  | a :: as, c, h => by
    have has : c ∉ as := fun hm => h (List.mem_cons_of_mem a hm)
    have ha : ¬ a = c := fun he => h (he ▸ List.mem_cons_self a as)
    simp [lastIdx?, lastIdx?_eq_none as c has, ha]

theorem lastIdx?_append : ∀ (s t : List Char) (c : Char), c ∉ t →
    lastIdx? c (s ++ t) = lastIdx? c s
  | [], t, c, h => by simp [lastIdx?_eq_none t c h, lastIdx?]
  | a :: as, t, c, h => by
    simp only [List.cons_append]
    rw [lastIdx?_cons, lastIdx?_cons, lastIdx?_append as t c h]

theorem searchBracket_some : ∀ (t : List Char) (i j : Nat),
    firstIdx? '[' t = some i → lastIdx? ']' t = some j → i ≤ j →
    searchBracket t = some ((t.drop i).take (j + 1 - i))
  | [], i, j, hi, _, _ => by simp [firstIdx?] at hi
  | c :: cs, i, j, hi, hj, hij => by
    by_cases hc : c = '['
    · have hi0 : i = 0 := by
        simp [firstIdx?, hc] at hi
        omega
      subst hi0
      simp only [searchBracket, if_pos hc]
      rw [hj]
      simp
    · have hi' : ∃ i0, firstIdx? '[' cs = some i0 ∧ i0 + 1 = i := by
        simpa [firstIdx?, hc, Option.map_eq_some'] using hi
      obtain ⟨i0, hi0, rfl⟩ := hi'
      cases hk : lastIdx? ']' cs with
      | some k =>
        have hjk : j = k + 1 := by
          simp [lastIdx?, hk] at hj
          omega
        subst hjk
        simp only [searchBracket, if_neg hc]
        rw [searchBracket_some cs i0 k hi0 hk (by omega)]
        congr 1
        rw [List.drop_succ_cons]
        congr 1
        omega
      | none =>
        exfalso
        by_cases hcr : c = ']'
        · have hj0 : j = 0 := by
            simp [lastIdx?, hk, hcr] at hj
            omega
          omega
        · simp [lastIdx?, hk, hcr] at hj

theorem searchBracket_none : ∀ (t : List Char),
    (∀ i j, firstIdx? '[' t = some i → lastIdx? ']' t = some j → j < i) →
    searchBracket t = none
  | [], _ => rfl
  | c :: cs, h => by
    by_cases hc : c = '['
    · have hfi : firstIdx? '[' (c :: cs) = some 0 := by simp [firstIdx?, hc]
      have hln : lastIdx? ']' (c :: cs) = none := by
        cases hl : lastIdx? ']' (c :: cs) with
        | none => rfl
        | some j => exact absurd (h 0 j hfi hl) (by omega)
      have hlcs : lastIdx? ']' cs = none := by
        cases hl : lastIdx? ']' cs with
        | none => rfl
        | some k => simp [lastIdx?, hl] at hln
      simp only [searchBracket, if_pos hc]
      rw [hln]
      exact searchBracket_none cs (fun i j _ hj => by rw [hlcs] at hj; cases hj)
    · simp only [searchBracket, if_neg hc]
      refine searchBracket_none cs (fun i j hi hj => ?_)
      have hi' : firstIdx? '[' (c :: cs) = some (i + 1) := by simp [firstIdx?, hc, hi]
      have hj' : lastIdx? ']' (c :: cs) = some (j + 1) := by simp [lastIdx?, hj]
      have := h (i + 1) (j + 1) hi' hj'
      omega

theorem noSpanB_spec (l : List Char) (h : noSpanB l = true) :
    ∀ i j, firstIdx? '[' l = some i → lastIdx? ']' l = some j → j < i := by
  intro i j hi hj
  unfold noSpanB at h
  rw [hi, hj] at h
  simpa using h

theorem subPat_head (pat l : List Char) (hp : pat ≠ []) (hb : begins pat l = true) :
    subPat pat l = subPat pat (dropSpaces (l.drop pat.length)) := by
  cases l with
  | nil =>
    cases pat with
    | nil => exact absurd rfl hp
    | cons q qs => simp [begins] at hb
  | cons c cs =>
    rw [subPat_cons, if_pos hb]
    congr 2
    cases pat with
    | nil => exact absurd rfl hp
    | cons q qs => simp

/-! ## Claim theorems -/

/-- C5: for every input whose fence-stripped form contains a `[` with a `]`
at or after it, `extract_json_from_response` returns exactly the substring
of the fence-stripped text from the first `[` to the last `]` inclusive
(the greedy DOTALL match). -/
theorem c5_extract_bracket_span (t : List Char) (i j : Nat)
    (hi : firstIdx? '[' (fenceStripped t) = some i)
    (hj : lastIdx? ']' (fenceStripped t) = some j)
    (hij : i ≤ j) :
    extract_json_from_response t = ((fenceStripped t).drop i).take (j + 1 - i) := by
  unfold extract_json_from_response
  rw [searchBracket_some (fenceStripped t) i j hi hj hij]

theorem c5_extract_bracket_span_witness :
    extract_json_from_response (("ab[cd]e").toList)
      = ((fenceStripped (("ab[cd]e").toList)).drop 2).take (5 + 1 - 2) :=
  c5_extract_bracket_span (("ab[cd]e").toList) 2 5 (by decide) (by decide) (by decide)

/-- C6 counterexample: on the input "```abc" — which contains no
first-`[`-to-last-`]` bracket pair — the extractor returns "abc", the
fence-stripped trimmed text, which differs from the trimmed original input
"```abc".  The claim that the trimmed *original* text is returned unchanged
is therefore false. -/
theorem c6_counterexample :
    firstIdx? '[' (("```abc").toList) = none ∧
    extract_json_from_response (("```abc").toList) = ("abc").toList ∧
    extract_json_from_response (("```abc").toList) ≠ pyStrip (("```abc").toList) :=
  ⟨by decide, by decide, by decide⟩

/-- C6 amended: when the fence-stripped text contains no `[` with a `]` at
or after it, `extract_json_from_response` returns the trimmed
*fence-stripped* text (not the trimmed original input). -/
theorem c6_amended_strip_of_fence_removed (t : List Char)
    (h : noSpanB (fenceStripped t) = true) :
    extract_json_from_response t = pyStrip (fenceStripped t) := by
  unfold extract_json_from_response
  rw [searchBracket_none (fenceStripped t) (noSpanB_spec (fenceStripped t) h)]

theorem c6_amended_strip_of_fence_removed_witness :
    extract_json_from_response (("x]y[z").toList) = pyStrip (fenceStripped (("x]y[z").toList)) :=
  c6_amended_strip_of_fence_removed (("x]y[z").toList) (by decide)

/-- C4: the validator rejects a parsed array of 4 elements and one of 6
elements with the invalid-format sentinel carrying detail
"Expected 5 Q&A pairs", and passes an array of exactly 5 elements through
unchanged. -/
theorem c4_validate_length_check (xs : List Json) :
    (xs.length = 4 → validateParsed (Json.arr xs)
        = sentinel ("Invalid response format") ("Expected 5 Q&A pairs")) ∧
    (xs.length = 6 → validateParsed (Json.arr xs)
        = sentinel ("Invalid response format") ("Expected 5 Q&A pairs")) ∧
    (xs.length = 5 → validateParsed (Json.arr xs) = xs) := by
  refine ⟨fun h => ?_, fun h => ?_, fun h => ?_⟩ <;>
    simp [validateParsed, h, invalidSentinel]

theorem c4_validate_length_check_witness :
    validateParsed (Json.arr (List.replicate 4 Json.null))
        = sentinel ("Invalid response format") ("Expected 5 Q&A pairs") ∧
    validateParsed (Json.arr (List.replicate 6 Json.null))
        = sentinel ("Invalid response format") ("Expected 5 Q&A pairs") ∧
    validateParsed (Json.arr (List.replicate 5 Json.null)) = List.replicate 5 Json.null :=
  ⟨(c4_validate_length_check (List.replicate 4 Json.null)).1 rfl,
   (c4_validate_length_check (List.replicate 6 Json.null)).2.1 rfl,
   (c4_validate_length_check (List.replicate 5 Json.null)).2.2 rfl⟩

/-- C2 counterexample: a parsed 5-element array whose elements all lack the
"answer" key is *not* rejected — `validateParsed` returns it unchanged, and
the full `generate_qa_pairs` pipeline returns it as a success, never the
invalid-format sentinel.  Only the length is ever checked. -/
theorem c2_counterexample :
    validateParsed (Json.arr (List.replicate 5 (Json.obj [("question", Json.str ("Q1"))])))
      = List.replicate 5 (Json.obj [("question", Json.str ("Q1"))]) ∧
    List.replicate 5 (Json.obj [("question", Json.str ("Q1"))]) ≠ invalidSentinel ∧
    generate_qa_pairs
        (fun _ => Except.ok (Json.arr (List.replicate 5 (Json.obj [("question", Json.str ("Q1"))]))))
        ("Software Engineer")
        (fun _ => PostOutcome.resp 200 (Except.ok (Json.obj [("response", Json.str ("ok"))])))
      = List.replicate 5 (Json.obj [("question", Json.str ("Q1"))]) := by
  refine ⟨rfl, ?_, rfl⟩
  intro h
  have h5 := congrArg List.length h
  simp [invalidSentinel, sentinel] at h5

/-- C2 amended: on the success path the code checks only that the parsed
value is a list of exactly 5 elements; the elements' shape (presence and
type of "question"/"answer") is never inspected, so any 5-element parsed
array is returned as a success. -/
theorem c2_amended_length_only_check (xs : List Json) (h : xs.length = 5) :
    validateParsed (Json.arr xs) = xs := by
  simp [validateParsed, h]

theorem c2_amended_length_only_check_witness :
    validateParsed (Json.arr (List.replicate 5 (Json.obj [("question", Json.str ("Q1"))])))
      = List.replicate 5 (Json.obj [("question", Json.str ("Q1"))]) :=
  c2_amended_length_only_check (List.replicate 5 (Json.obj [("question", Json.str ("Q1"))])) rfl

/-- C1: for every role string, every `json.loads` behaviour and every
possible backend outcome (raised exception, non-200 status, unparsable
body, missing/non-string response field, unparsable extracted text, or a
parsed value of any shape), `generate_qa_pairs` returns either a list of
exactly 5 elements or the 1-element error sentinel; it never returns 0, 2,
3 or 4 elements and never mixes valid pairs with error pairs. -/
theorem c1_generate_qa_pairs_shape (loads : String → Except String Json)
    (role : String) (post : String → PostOutcome) :
    (generate_qa_pairs loads role post).length = 5 ∨
      ∃ q a, generate_qa_pairs loads role post = sentinel q a := by
  unfold generate_qa_pairs
  split
  · exact Or.inr ⟨_, _, rfl⟩
  · split
    · split
      · exact Or.inr ⟨_, _, rfl⟩
      · split
        · exact Or.inr ⟨_, _, rfl⟩
        · split
          · exact Or.inr ⟨_, _, rfl⟩
          · rename_i v heq
            cases v with
            | arr xs =>
              by_cases hlen : xs.length = 5
              · exact Or.inl (by simp [validateParsed, hlen])
              · exact Or.inr ⟨("Invalid response format"), ("Expected 5 Q&A pairs"),
                  by simp [validateParsed, hlen, invalidSentinel]⟩
            | null => exact Or.inr ⟨_, _, rfl⟩
            | bool b => exact Or.inr ⟨_, _, rfl⟩
            | num n => exact Or.inr ⟨_, _, rfl⟩
            | str s => exact Or.inr ⟨_, _, rfl⟩
            | obj kvs => exact Or.inr ⟨_, _, rfl⟩
    · exact Or.inr ⟨_, _, rfl⟩

/-- C7: on a bare JSON array (starts with `[`, ends with `]`, no fence
marker inside), the extractor is the identity; and wrapping the same array
in a Markdown code fence with the `json` language tag yields the same
extractor output as the unwrapped array. -/
theorem c7_extract_idempotent_fenced (s : List Char)
    (h1 : s.head? = some '[') (h2 : s.getLast? = some ']')
    (h3 : containsSub tripleTick s = false) :
    extract_json_from_response s = s ∧
    extract_json_from_response (wrapFenceJson s) = extract_json_from_response s := by
  have hlen1 : 1 ≤ s.length := by
    cases s with
    | nil => simp at h1
    | cons a as => simp
  have hfs : fenceStripped s = s := by
    unfold fenceStripped subFenceJson subFence
    rw [subPat_id fenceJson s (by decide) h3, subPat_id tripleTick s (by decide) h3]
  have hi : firstIdx? '[' s = some 0 := firstIdx?_of_head s '[' h1
  have hj : lastIdx? ']' s = some (s.length - 1) := lastIdx?_of_getLast s ']' h2
  have hA : extract_json_from_response s = s := by
    unfold extract_json_from_response
    rw [hfs, searchBracket_some s 0 (s.length - 1) hi hj (by omega)]
    rw [List.drop_zero]
    rw [show s.length - 1 + 1 - 0 = s.length from by omega]
    rw [List.take_length]
  have hw : wrapFenceJson s = fenceJson ++ ('\n' :: (s ++ ('\n' :: tripleTick))) := by
    unfold wrapFenceJson
    simp [List.append_assoc]
  have e1 : subFenceJson (wrapFenceJson s) = s ++ ('\n' :: tripleTick) := by
    unfold subFenceJson
    rw [hw, subPat_head fenceJson _ (by decide) (begins_self_append _ _)]
    rw [List.drop_left]
    rw [show dropSpaces ('\n' :: (s ++ ('\n' :: tripleTick)))
          = dropSpaces (s ++ ('\n' :: tripleTick)) from rfl]
    have hds : dropSpaces (s ++ ('\n' :: tripleTick)) = s ++ ('\n' :: tripleTick) := by
      cases s with
      | nil => simp at h1
      | cons a s' =>
        have ha : a = '[' := by simpa using h1
        subst ha
        rfl
    rw [hds, subPat_append fenceJson (by decide) s _ h3 h2]
    rw [show subPat fenceJson ('\n' :: tripleTick) = '\n' :: tripleTick from by decide]
  have e2 : subFence (s ++ ('\n' :: tripleTick)) = s ++ ['\n'] := by
    unfold subFence
    rw [subPat_append tripleTick (by decide) s _ h3 h2]
    rw [show subPat tripleTick ('\n' :: tripleTick) = ['\n'] from by decide]
  have hfs2 : fenceStripped (wrapFenceJson s) = s ++ ['\n'] := by
    unfold fenceStripped
    rw [e1]
    exact e2
  have hi2 : firstIdx? '[' (s ++ ['\n']) = some 0 := by
    apply firstIdx?_of_head
    cases s with
    | nil => simp at h1
    | cons a s' =>
      have ha : a = '[' := by simpa using h1
      simp [ha]
  have hj2 : lastIdx? ']' (s ++ ['\n']) = some (s.length - 1) := by
    rw [lastIdx?_append s ['\n'] ']' (by decide)]
    exact lastIdx?_of_getLast s ']' h2
  have hB : extract_json_from_response (wrapFenceJson s) = s := by
    unfold extract_json_from_response
    rw [hfs2, searchBracket_some (s ++ ['\n']) 0 (s.length - 1) hi2 hj2 (by omega)]
    rw [List.drop_zero]
    rw [show s.length - 1 + 1 - 0 = s.length from by omega]
    rw [List.take_left]
  exact ⟨hA, by rw [hA]; exact hB⟩

theorem c7_extract_idempotent_fenced_witness :
    extract_json_from_response (("[1, 2]").toList) = ("[1, 2]").toList ∧
    extract_json_from_response (wrapFenceJson (("[1, 2]").toList))
      = extract_json_from_response (("[1, 2]").toList) :=
  c7_extract_idempotent_fenced (("[1, 2]").toList) (by decide) (by decide) (by decide)

/-! ## Lemmas: the handlers on valid inputs -/

theorem sniff_sentinel (q d : String) :
    sniff (sentinel q d) =
      if containsSub (("error").toList) (lowerChars q.toList)
      then some (ApiResponse.err 500 ("AI generation failed: " ++ d))
      else none := rfl

theorem generate_questions_eq (role : String) (qa : List Json)
    (h2 : 2 ≤ (pyStripS role).length) (hne : qa ≠ []) :
    generate_questions role qa =
      match sniff qa with
      | some e => e
      | none => ApiResponse.ok (pyStripS role) qa qa.length ("success") ("role_based") := by
  have hr : ¬ pyStripS role = "" := by
    intro h0
    rw [h0] at h2
    simp at h2
  unfold generate_questions
  rw [if_neg hr, if_neg (by omega)]
  cases qa with
  | nil => exact absurd rfl hne
  | cons x xs => rfl

theorem generate_questions_from_resume_eq (filename resume_text : String) (qa : List Json)
    (hf : ¬ filename = "")
    (hext : extLower filename = "pdf" ∨ extLower filename = "docx" ∨ extLower filename = "txt")
    (hres : ¬ (resume_text = "" ∨ (pyStripS resume_text).length < 50)) (hne : qa ≠ []) :
    generate_questions_from_resume filename resume_text qa =
      match sniff qa with
      | some e => e
      | none => ApiResponse.ok filename qa qa.length ("success") ("resume_based") := by
  unfold generate_questions_from_resume
  rw [if_neg hf, if_neg (not_not_intro hext), if_neg hres]
  cases qa with
  | nil => exact absurd rfl hne
  | cons x xs => rfl

/-- C3 counterexample: when the generator returns the invalid-format
sentinel (question "Invalid response format", whose lowercase form does not
contain "error"), both endpoints do *not* respond with HTTP 500 — they
return a status-"success" body carrying the sentinel with
`total_questions = 1`.  The claim that every sentinel yields a 500 and that
"success" implies exactly 5 pairs is therefore false. -/
theorem c3_counterexample :
    generate_questions ("Software Engineer") invalidSentinel
      = ApiResponse.ok ("Software Engineer") invalidSentinel 1 ("success") ("role_based") ∧
    generate_questions_from_resume ("resume.pdf")
        ("Experienced software engineer with ten years of backend systems work.")
        invalidSentinel
      = ApiResponse.ok ("resume.pdf") invalidSentinel 1 ("success") ("resume_based") ∧
    ApiResponse.ok ("Software Engineer") invalidSentinel 1 ("success") ("role_based")
      ≠ ApiResponse.err 500 ("AI generation failed: Expected 5 Q&A pairs") :=
  ⟨rfl, rfl, fun h => ApiResponse.noConfusion h⟩

/-- C3 amended: on valid inputs, the endpoints respond 500 only for
1-element sentinels whose question text contains "error" case-insensitively
("API Error", "Error occurred"); the "Invalid response format" sentinel is
instead forwarded as a status-"success" body with `total_questions = 1`,
and a 5-element generator result yields the status-"success" body with
`total_questions = 5`. -/
theorem c3_amended_error_sniff (role d filename resume_text : String) (a b c dd e : Json)
    (h2 : 2 ≤ (pyStripS role).length)
    (hf : ¬ filename = "")
    (hext : extLower filename = "pdf" ∨ extLower filename = "docx" ∨ extLower filename = "txt")
    (hres : ¬ (resume_text = "" ∨ (pyStripS resume_text).length < 50)) :
    generate_questions role (sentinel ("API Error") d)
      = ApiResponse.err 500 ("AI generation failed: " ++ d) ∧
    generate_questions role (sentinel ("Error occurred") d)
      = ApiResponse.err 500 ("AI generation failed: " ++ d) ∧
    generate_questions role invalidSentinel
      = ApiResponse.ok (pyStripS role) invalidSentinel 1 ("success") ("role_based") ∧
    generate_questions role [a, b, c, dd, e]
      = ApiResponse.ok (pyStripS role) [a, b, c, dd, e] 5 ("success") ("role_based") ∧
    generate_questions_from_resume filename resume_text (sentinel ("API Error") d)
      = ApiResponse.err 500 ("AI generation failed: " ++ d) ∧
    generate_questions_from_resume filename resume_text (sentinel ("Error occurred") d)
      = ApiResponse.err 500 ("AI generation failed: " ++ d) ∧
    generate_questions_from_resume filename resume_text invalidSentinel
      = ApiResponse.ok filename invalidSentinel 1 ("success") ("resume_based") ∧
    generate_questions_from_resume filename resume_text [a, b, c, dd, e]
      = ApiResponse.ok filename [a, b, c, dd, e] 5 ("success") ("resume_based") := by
  have hsent : ∀ q a0 : String, sentinel q a0 ≠ [] := by
    intro q a0 h
    simp [sentinel] at h
  have hinv : invalidSentinel ≠ [] := by
    simp [invalidSentinel, sentinel]
  refine ⟨?_, ?_, ?_, ?_, ?_, ?_, ?_, ?_⟩
  · rw [generate_questions_eq role _ h2 (hsent _ _), sniff_sentinel, if_pos (by decide)]
  · rw [generate_questions_eq role _ h2 (hsent _ _), sniff_sentinel, if_pos (by decide)]
  · rw [generate_questions_eq role _ h2 hinv,
      show sniff invalidSentinel = none from rfl]
    rfl
  · rw [generate_questions_eq role _ h2 (by simp)]
    rfl
  · rw [generate_questions_from_resume_eq filename resume_text _ hf hext hres (hsent _ _),
      sniff_sentinel, if_pos (by decide)]
  · rw [generate_questions_from_resume_eq filename resume_text _ hf hext hres (hsent _ _),
      sniff_sentinel, if_pos (by decide)]
  · rw [generate_questions_from_resume_eq filename resume_text _ hf hext hres hinv,
      show sniff invalidSentinel = none from rfl]
    rfl
  · rw [generate_questions_from_resume_eq filename resume_text _ hf hext hres (by simp)]
    rfl

theorem c3_amended_error_sniff_witness :
    generate_questions ("Software Engineer") invalidSentinel
      = ApiResponse.ok ("Software Engineer") invalidSentinel 1 ("success") ("role_based") ∧
    generate_questions ("Software Engineer") (sentinel ("API Error") ("boom"))
      = ApiResponse.err 500 ("AI generation failed: boom") :=
  ⟨(c3_amended_error_sniff ("Software Engineer") ("boom") ("cv.txt")
      ("Experienced software engineer with ten years of backend systems work.")
      Json.null Json.null Json.null Json.null Json.null
      (by decide) (by decide) (by decide) (by decide)).2.2.1,
   (c3_amended_error_sniff ("Software Engineer") ("boom") ("cv.txt")
      ("Experienced software engineer with ten years of backend systems work.")
      Json.null Json.null Json.null Json.null Json.null
      (by decide) (by decide) (by decide) (by decide)).1⟩

/-- C8 counterexample: the claim that *both* backend calls carry a
120-second bound is false — the Gemini `generate_content` call site passes
no timeout argument at all. -/
theorem c8_counterexample :
    ¬ (ollamaPostCall.timeout = some 120 ∧ geminiGenerateCall.timeout = some 120) := by
  intro h
  exact Option.noConfusion h.2

/-- C8 amended: the role-based `requests.post` call applies a 120-second
timeout; the resume-based `generate_content` call passes no timeout and
relies on the provider client's defaults. -/
theorem c8_amended_timeouts :
    ollamaPostCall.timeout = some 120 ∧ geminiGenerateCall.timeout = none :=
  ⟨rfl, rfl⟩

/-- C9: fence-marker removal is applied globally, including inside string
values of the JSON array: on a valid JSON array one of whose string values
contains a literal fence marker, the extractor's output differs from the
array — the backticks and the following whitespace are deleted from inside
the value. -/
theorem c9_fence_removal_inside_string :
    extract_json_from_response
        (("[\x7b\"question\": \"Use ``` to fence\", \"answer\": \"ok\"\x7d]").toList)
      = ("[\x7b\"question\": \"Use to fence\", \"answer\": \"ok\"\x7d]").toList ∧
    ("[\x7b\"question\": \"Use to fence\", \"answer\": \"ok\"\x7d]").toList
      ≠ ("[\x7b\"question\": \"Use ``` to fence\", \"answer\": \"ok\"\x7d]").toList :=
  ⟨by decide, by decide⟩

/-- C10: `extract_text_from_txt` is total on byte sequences: it returns the
trimmed UTF-8 decoding when the bytes are valid UTF-8 and otherwise the
trimmed Latin-1 decoding; Latin-1 decoding succeeds on every byte sequence,
so the `iso-8859-1`, `cp1252` and lossy-replacement branches are
unreachable. -/
theorem c10_txt_decode_total (bs : List Nat) (hb : ∀ b ∈ bs, b < 256) :
    tryDecode latin1Table bs = some (latin1Decode bs) ∧
    extract_text_from_txt bs =
      (match utf8Decode bs with
       | some cs => pyStrip cs
       | none => pyStrip (latin1Decode bs)) := by
  have hlat : ∀ (l : List Nat), (∀ b ∈ l, b < 256) →
      tryDecode latin1Table l = some (latin1Decode l) := by
    intro l
    induction l with
    | nil => intro _; rfl
    | cons b rest ih =>
      intro h
      have hb' : b < 256 := h b (by simp)
      have hrest := ih (fun x hx => h x (by simp [hx]))
      simp [tryDecode, latin1Table, hb', hrest, latin1Decode]
  refine ⟨hlat bs hb, ?_⟩
  unfold extract_text_from_txt
  cases hu : utf8Decode bs with
  | some cs => rfl
  | none =>
    rw [hlat bs hb]

theorem c10_txt_decode_total_witness :
    tryDecode latin1Table [72, 255] = some (latin1Decode [72, 255]) ∧
    extract_text_from_txt [72, 255] =
      (match utf8Decode [72, 255] with
       | some cs => pyStrip cs
       | none => pyStrip (latin1Decode [72, 255])) :=
  c10_txt_decode_total [72, 255] (by decide)
